import Mathlib

/-!
Verification of the brand-sentiment classification-and-upsert pipeline
(`pipeline.py`, shared by the root and `vercel/api/bigquery` variants).

Shallow embedding conventions:
* Python strings are Lean `String`; Python `s.lower()` is `lower`
  (character-wise `Char.toLower`, written directly on the character list so
  the kernel can evaluate it); Python substring containment `pat in t` is
  `hasSub t pat` (direct sliding-window search).
* Sentiment scores are Python floats carrying VADER compound values and the
  literals `0.0` / `-1.0` / threshold `0.3`; they are modelled as `ℚ`, and
  the external VADER analyzer (`sia.polarity_scores(q)['compound']`) is an
  abstract parameter `compound : String → ℚ`.  The threshold `0.3` is the
  constant `point3` (a raw `Rat` literal so concrete instances evaluate in
  the kernel; `point3_eq` identifies it with `3/10`), and Python's `abs`
  is `ratAbs` (`ratAbs_eq` identifies it with `|·|`).
* Calendar dates are modelled as proleptic-Gregorian ordinals (`ℕ`, day 1 =
  0001-01-01, a Monday), so Python's `date.weekday()` (Monday = 0) is
  `(d - 1) % 7`; the `strftime "%Y-%m-%d"` formatting step is dropped and a
  row's `MONDAY` field carries the ordinal itself.
* Python `set(...)` built from a list is kept as the list: the sets are only
  consumed through `any`-containment tests, for which deduplication is
  irrelevant.
* BigQuery timestamps (`CURRENT_TIMESTAMP()` and the provisional
  `datetime.utcnow()` strings discarded by the MERGE) are an abstract `ℕ`
  merge time.
* Python exceptions are `Except String`.
-/

namespace BQPipeline

/-- Python `str.lower()` (character-wise fold, as used on queries and
keywords in the source). -/
def lower (s : String) : String := ⟨s.data.map Char.toLower⟩

/-- Does character list `s` begin with `pat`? (helper for `hasSub`). -/
def listLeads : List Char → List Char → Bool
  | [], _ => true
  | _ :: _, [] => false
  | p :: ps, c :: cs => p == c && listLeads ps cs

/-- Sliding-window substring search on character lists: does `pat` occur
contiguously inside the list?  (Embeds Python's `pat in s` on strings.) -/
def listHasSub (pat : List Char) : List Char → Bool
  | [] => listLeads pat []
  | c :: cs => listLeads pat (c :: cs) || listHasSub pat cs

/-- Python `pat in t` substring containment on strings. -/
def hasSub (t pat : String) : Bool :=
  listHasSub pat.data t.data

/-- The float literal `0.3` of the source, as a raw rational. -/
def point3 : ℚ := ⟨3, 10, by decide, by decide⟩

/-- Python `abs` on scores. -/
def ratAbs (s : ℚ) : ℚ := if s < 0 then -s else s

/-- The `EXCLUSION_BASE` list from pipeline.py. -/
def EXCLUSION_BASE : List String :=
  ["beach", "restaurant", "hotel", "museum", "park", "bitter end", "kia ora",
   "lonely planet", "yacht"]

/-- The `DEFAULT_DESTINATIONS` list from pipeline.py (the static ~58-entry
destination gazetteer). -/
def DEFAULT_DESTINATIONS : List String :=
  ["botswana", "kenya", "mozambique", "rwanda", "south africa", "tanzania",
   "zambia", "zanzibar", "australia", "new zealand", "cambodia", "hong kong",
   "indonesia", "laos", "malaysia", "philippines", "singapore", "thailand",
   "vietnam", "anguilla", "antigua and barbuda", "barbados", "bermuda",
   "british virgin islands", "grenada", "jamaica", "sint eustatius",
   "st barths", "st kitts & nevis", "st vincent & the grenadines",
   "turks & caicos", "maldives", "mauritius", "réunion", "seychelles",
   "sri lanka", "greece", "ibiza", "italy", "quintana roo", "yucatán",
   "oaxaca", "mexico city", "jalisco", "baja california sur", "los cabos",
   "veracruz", "abu dhabi", "ajman", "dubai", "oman", "ras al khaimah",
   "canada", "usa", "cook islands", "fiji", "tahiti", "bora bora"]

/-- The inner `score` closure of `analyze_sentiment`:
```python
def score(q: str) -> float:
    t = q.lower()
    if 'st lucia' in t and not any(kw in t for kw in negs):
        return 0.0
    if any(ex in t for ex in excl):
        return 0.0
    if negs and any(kw in t for kw in negs):
        return -1.0
    s = sia.polarity_scores(q)['compound']
    return s if abs(s) > 0.3 or any(d in t for d in dests) else 0.0
```
`excl`, `dests`, `negs` are the already-prepared keyword lists and
`compound` stands for the VADER analyzer. -/
def score (compound : String → ℚ) (excl dests negs : List String)
    (q : String) : ℚ :=
  let t := lower q
  if hasSub t "st lucia" && !(negs.any fun kw => hasSub t kw) then 0
  else if excl.any fun ex => hasSub t ex then 0
  else if !negs.isEmpty && (negs.any fun kw => hasSub t kw) then -1
  else
    let s := compound q
    if decide (point3 < ratAbs s) || (dests.any fun d => hasSub t d) then s
    else 0

/-- The category derivation applied to every score in `analyze_sentiment`:
`"positive" if s > 0.3 else "negative" if s < -0.3 else "neutral"`. -/
def categorize (s : ℚ) : String :=
  if point3 < s then "positive"
  else if s < -point3 then "negative"
  else "neutral"

/-- Python's `date.weekday()` on an ordinal day number (Monday = 0;
ordinal 1 = 0001-01-01 is a Monday). -/
def weekday (d : ℕ) : ℕ := (d - 1) % 7

/-- Model of `last_monday_str` (minus the string formatting): `today` when `today`
is a Monday, otherwise `today - timedelta(days=today.weekday())`. -/
def last_monday (today : ℕ) : ℕ :=
  if weekday today = 0 then today else today - weekday today

/-- One output record of `analyze_sentiment` (field names follow the Python
dict keys; `MONDAY` holds the date ordinal). -/
structure ClassifiedRow where
  query : String
  Sentiment_Score : ℚ
  Sentiment_Category : String
  MONDAY : ℕ
deriving DecidableEq, Repr

/-- Model of `analyze_sentiment(queries, destinations, exclusions,
ctx_keywords, negative_keywords)`.  `compound` abstracts the VADER analyzer instantiated
at the top of the Python function and `today` the current date read by
`last_monday_str`. -/
def analyze_sentiment (compound : String → ℚ) (today : ℕ)
    (queries destinations exclusions ctx_keywords negative_keywords :
      List String) : List ClassifiedRow :=
  let excl := (exclusions ++ ctx_keywords).map lower
  let dests := destinations
  let negs := negative_keywords
  let monday := last_monday today
  queries.map fun q =>
    let s := score compound excl dests negs q
    { query := q
      Sentiment_Score := s
      Sentiment_Category := categorize s
      MONDAY := monday }

/-- A row of the durable target table
(`query, Sentiment_Score, Sentiment_Category, MONDAY, inserted_at,
updated_at`), timestamps as abstract `ℕ`. -/
structure PersistedRow where
  query : String
  Sentiment_Score : ℚ
  Sentiment_Category : String
  MONDAY : ℕ
  inserted_at : ℕ
  updated_at : ℕ
deriving DecidableEq, Repr

/-- Effect of the `WHEN MATCHED` arm of the MERGE statement in
`upsert_rows_to_bq` on one target row `t`: if some staged row `S` has
`S.query = T.query` and its score or category differs, set
`Sentiment_Score`, `Sentiment_Category` and `updated_at := mergeTime`
(leaving `MONDAY` and `inserted_at` untouched); otherwise leave the row
as it is. -/
def mergeMatched (mergeTime : ℕ) (staged : List ClassifiedRow)
    (t : PersistedRow) : PersistedRow :=
  match staged.find? fun s => s.query == t.query with
  | none => t
  | some s =>
    if s.Sentiment_Score ≠ t.Sentiment_Score ∨
        s.Sentiment_Category ≠ t.Sentiment_Category then
      { t with Sentiment_Score := s.Sentiment_Score
               Sentiment_Category := s.Sentiment_Category
               updated_at := mergeTime }
    else t

/-- Effect of the `WHEN NOT MATCHED` arm: insert the staged row with
`inserted_at = updated_at = CURRENT_TIMESTAMP()` and `MONDAY` from the
batch stamp. -/
def mergeInsert (mergeTime : ℕ) (s : ClassifiedRow) : PersistedRow :=
  { query := s.query
    Sentiment_Score := s.Sentiment_Score
    Sentiment_Category := s.Sentiment_Category
    MONDAY := s.MONDAY
    inserted_at := mergeTime
    updated_at := mergeTime }

/-- State transition of the target table performed by `upsert_rows_to_bq`
(the `MERGE \`table\` T USING \`staging\` S ON T.query = S.query`
statement): matched target rows go through `mergeMatched`, staged rows
matching no target row are appended via `mergeInsert`.  The provisional
`datetime.utcnow()` strings loaded into staging are discarded by the MERGE
and therefore not modelled; the surrounding schema-ensure, staging-load
and staging-drop steps do not touch target-row contents.  BigQuery's
MERGE faithfully behaves this way when no target row matches two staged
rows, which the idempotence theorems guarantee with a `Nodup` hypothesis
on staged queries (upstream, `fetch_queries` uses `SELECT DISTINCT`). -/
def upsert_rows_to_bq (table : List PersistedRow)
    (staged : List ClassifiedRow) (mergeTime : ℕ) : List PersistedRow :=
  table.map (mergeMatched mergeTime staged) ++
    (staged.filter fun s => table.all fun t => !(t.query == s.query)).map
      (mergeInsert mergeTime)

/-- Per-client run result dict: `{"dataset", "rows", "note"?, "ok"?}`. -/
structure RunReport where
  dataset : String
  rows : ℕ
  note : Option String
  ok : Bool
deriving DecidableEq, Repr

/-- Model of `fetch_queries`: on success keep the truthy (non-empty) query strings,
on any BigQuery error log and return the empty list (`except ... return
[]`).  The outcome of the external `bq.query(...).result()` call is the
`Except` argument. -/
def fetch_queries (outcome : Except String (List String)) : List String :=
  match outcome with
  | Except.ok rows => rows.filter fun q => !(q == "")
  | Except.error _ => []

/-- Model of `run_one(dataset)`.  `project` is `BIGQUERY_PROJECT`; `fetchOutcome`
the result of the warehouse query; `ctx`/`negs` the externally loaded
keyword lists; `compound`/`today` as in `analyze_sentiment`.  The second
component of a successful return records the batch handed to
`upsert_rows_to_bq` (`none` = the upsert was never invoked). -/
def run_one (project dataset : String)
    (fetchOutcome : Except String (List String)) (ctx negs : List String)
    (compound : String → ℚ) (today : ℕ) :
    Except String (RunReport × Option (List ClassifiedRow)) :=
  if project = "" then Except.error "BIGQUERY_PROJECT env is required."
  else
    let queries := fetch_queries fetchOutcome
    if queries.isEmpty then
      Except.ok ({ dataset := dataset, rows := 0, note := some "no queries",
                   ok := false }, none)
    else
      let rows := analyze_sentiment compound today queries
        DEFAULT_DESTINATIONS EXCLUSION_BASE ctx negs
      Except.ok ({ dataset := dataset, rows := rows.length, note := none,
                   ok := true }, some rows)

/-- Model of `run_for_datasets(datasets)`: the bare `for ds in datasets:
results.append(run_one(ds))` loop.  An exception raised by `run_one`
propagates out of the loop (there is no try/except around the body), so
the whole batch is an `Except`. -/
def run_for_datasets (runOne : String → Except String RunReport)
    (datasets : List String) : Except String (List RunReport) :=
  match datasets with
  | [] => Except.ok []
  | ds :: rest =>
    match runOne ds with
    | Except.error e => Except.error e
    | Except.ok r =>
      match run_for_datasets runOne rest with
      | Except.error e => Except.error e
      | Except.ok rs => Except.ok (r :: rs)

/-- The `{"dataset": dataset, "rows": 0, "note": "no queries"}` result
dict of `run_one`. -/
def no_queries_report (dataset : String) : RunReport :=
  { dataset := dataset, rows := 0, note := some "no queries", ok := false }

/-- A per-client run that fails fatally on dataset "clientA" (e.g. the
storage write raised) and would succeed on any other dataset. -/
def failingRunOne : String → Except String RunReport := fun ds =>
  if ds = "clientA" then Except.error "storage-write failure"
  else Except.ok { dataset := ds, rows := 5, note := none, ok := true }

/-! Helper lemmas about the classifier. -/

theorem point3_eq : point3 = 3 / 10 := by
  rw [point3, Rat.mk'_eq_divInt, Rat.divInt_eq_div]
  norm_num

theorem ratAbs_eq (s : ℚ) : ratAbs s = |s| := by
  rw [ratAbs]
  split
  · rw [abs_of_neg]; assumption
  · rw [abs_of_nonneg (le_of_not_lt (by assumption))]

/-- Every output row of `analyze_sentiment` is the record built from some
input query. -/
lemma analyze_mem {compound : String → ℚ} {today : ℕ}
    {queries dests excl ctx negs : List String} {r : ClassifiedRow}
    (hr : r ∈ analyze_sentiment compound today queries dests excl ctx negs) :
    ∃ q ∈ queries,
      r = { query := q
            Sentiment_Score := score compound ((excl ++ ctx).map lower)
              dests negs q
            Sentiment_Category := categorize (score compound
              ((excl ++ ctx).map lower) dests negs q)
            MONDAY := last_monday today } := by
  simp only [analyze_sentiment, List.mem_map] at hr
  obtain ⟨q, hq, rfl⟩ := hr
  exact ⟨q, hq, rfl⟩

/-- Rule 1 of `score`: the st-lucia override. -/
lemma score_stlucia {compound : String → ℚ} {excl dests negs : List String}
    {q : String}
    (h1 : hasSub (lower q) "st lucia" = true)
    (h2 : (negs.any fun kw => hasSub (lower q) kw) = false) :
    score compound excl dests negs q = 0 := by
  simp [score, h1, h2]

/-- Rule 2 of `score`: the exclusion gate returns 0 (whether or not the
st-lucia branch fired first, both produce 0). -/
lemma score_excl {compound : String → ℚ} {excl dests negs : List String}
    {q : String}
    (h : (excl.any fun ex => hasSub (lower q) ex) = true) :
    score compound excl dests negs q = 0 := by
  simp only [score]
  split
  · rfl
  · simp [h]

/-- Rule 3 of `score`: the hard negative override. -/
lemma score_neg {compound : String → ℚ} {excl dests negs : List String}
    {q : String}
    (hexcl : (excl.any fun ex => hasSub (lower q) ex) = false)
    (hne : negs ≠ [])
    (hneg : (negs.any fun kw => hasSub (lower q) kw) = true) :
    score compound excl dests negs q = -1 := by
  have hie : negs.isEmpty = false := by
    cases negs with
    | nil => exact absurd rfl hne
    | cons a l => rfl
  simp [score, hneg, hexcl, hie]

/-- Rule 4 of `score`: the lexicon fallback, reached when no earlier rule
fires. -/
lemma score_fb {compound : String → ℚ} {excl dests negs : List String}
    {q : String}
    (hst : hasSub (lower q) "st lucia" = false)
    (hexcl : (excl.any fun ex => hasSub (lower q) ex) = false)
    (hneg : (negs.any fun kw => hasSub (lower q) kw) = false) :
    score compound excl dests negs q =
      if point3 < ratAbs (compound q) ∨
          (dests.any fun d => hasSub (lower q) d) = true
      then compound q else 0 := by
  simp [score, hst, hexcl, hneg]

/-! Claims about the classifier. -/

/-- C1: for every query whose case-folded form contains the literal
substring "st lucia" and contains no substring from the negatives set,
the classifier returns score 0.0, regardless of lexical sentiment
(`compound` is arbitrary) and of any exclusion substring present
(`exclusions`/`ctx` are arbitrary); when the negatives set is empty the
rule fires for every query containing "st lucia". -/
theorem C1_stlucia_forces_zero
    (compound : String → ℚ) (today : ℕ)
    (queries destinations exclusions ctx negs : List String)
    (r : ClassifiedRow)
    (hr : r ∈ analyze_sentiment compound today queries destinations
      exclusions ctx negs)
    (hst : hasSub (lower r.query) "st lucia" = true) :
    ((negs.any fun kw => hasSub (lower r.query) kw) = false →
      r.Sentiment_Score = 0) ∧
    (negs = [] → r.Sentiment_Score = 0) := by
  obtain ⟨q, hq, rfl⟩ := analyze_mem hr
  refine ⟨fun h2 => score_stlucia hst h2, fun h => ?_⟩
  subst h
  exact score_stlucia hst rfl

theorem C1_witness :
    ({ query := "St Lucia trip", Sentiment_Score := 0,
       Sentiment_Category := "neutral", MONDAY := 8 } :
        ClassifiedRow).Sentiment_Score = 0 :=
  (C1_stlucia_forces_zero (fun _ => 1) 9 ["St Lucia trip"] [] [] [] [] _
    (by decide) (by decide)).2 rfl

/-- C4: for every query on which the st-lucia rule and the exclusion gate
do not fire, a non-empty negatives set with a matching negative keyword
forces score -1.0; with an empty negatives set the negative rule never
fires and the query falls through to the lexicon fallback. -/
theorem C4_negative_override
    (compound : String → ℚ) (today : ℕ)
    (queries destinations exclusions ctx negs : List String)
    (r : ClassifiedRow)
    (hr : r ∈ analyze_sentiment compound today queries destinations
      exclusions ctx negs)
    (hexcl : (((exclusions ++ ctx).map lower).any fun ex =>
      hasSub (lower r.query) ex) = false) :
    (negs ≠ [] → (negs.any fun kw => hasSub (lower r.query) kw) = true →
      r.Sentiment_Score = -1) ∧
    (negs = [] → hasSub (lower r.query) "st lucia" = false →
      r.Sentiment_Score =
        if point3 < ratAbs (compound r.query) ∨
            (destinations.any fun d => hasSub (lower r.query) d) = true
        then compound r.query else 0) := by
  obtain ⟨q, hq, rfl⟩ := analyze_mem hr
  refine ⟨fun hne hneg => score_neg hexcl hne hneg, fun hnil hst => ?_⟩
  subst hnil
  exact score_fb hst hexcl rfl

theorem C4_witness :
    ({ query := "worst ever", Sentiment_Score := -1,
       Sentiment_Category := "negative", MONDAY := 8 } :
        ClassifiedRow).Sentiment_Score = -1 :=
  (C4_negative_override (fun _ => 1) 9 ["worst ever"] [] [] [] ["worst"] _
    (by decide) (by decide)).1 (by decide) (by decide)

/-- C5: every query whose case-folded form contains a substring of the
exclusion set (the case-folded union of the static base list and the
context keywords) is scored 0.0 — also when the st-lucia rule pre-empts
the exclusion gate, since that rule returns 0.0 as well. -/
theorem C5_exclusion_zero
    (compound : String → ℚ) (today : ℕ)
    (queries destinations exclusions ctx negs : List String)
    (r : ClassifiedRow)
    (hr : r ∈ analyze_sentiment compound today queries destinations
      exclusions ctx negs)
    (hex : (((exclusions ++ ctx).map lower).any fun ex =>
      hasSub (lower r.query) ex) = true) :
    r.Sentiment_Score = 0 := by
  obtain ⟨q, hq, rfl⟩ := analyze_mem hr
  exact score_excl hex

theorem C5_witness :
    ({ query := "nice Beach", Sentiment_Score := 0,
       Sentiment_Category := "neutral", MONDAY := 8 } :
        ClassifiedRow).Sentiment_Score = 0 :=
  C5_exclusion_zero (fun _ => 1) 9 ["nice Beach"] [] ["beach"] [] [] _
    (by decide) (by decide)

/-- C6: when none of rules 1-3 fires, the classifier returns the lexicon
compound unmodified if its absolute value exceeds 0.3 or the case-folded
query contains a destination substring, and 0.0 otherwise. -/
theorem C6_lexicon_fallback
    (compound : String → ℚ) (today : ℕ)
    (queries destinations exclusions ctx negs : List String)
    (r : ClassifiedRow)
    (hr : r ∈ analyze_sentiment compound today queries destinations
      exclusions ctx negs)
    (hst : hasSub (lower r.query) "st lucia" = false)
    (hex : (((exclusions ++ ctx).map lower).any fun ex =>
      hasSub (lower r.query) ex) = false)
    (hneg : (negs.any fun kw => hasSub (lower r.query) kw) = false) :
    (3/10 < |compound r.query| ∨
        (destinations.any fun d => hasSub (lower r.query) d) = true →
      r.Sentiment_Score = compound r.query) ∧
    (¬(3/10 < |compound r.query|) →
      (destinations.any fun d => hasSub (lower r.query) d) = false →
      r.Sentiment_Score = 0) := by
  obtain ⟨q, hq, rfl⟩ := analyze_mem hr
  have hfb := @score_fb compound ((exclusions ++ ctx).map lower)
    destinations negs q hst hex hneg
  rw [point3_eq, ratAbs_eq] at hfb
  constructor
  · intro h
    rw [hfb, if_pos h]
  · intro h1 h2
    rw [hfb, if_neg]
    rintro (hc | hc)
    · exact h1 hc
    · rw [h2] at hc
      exact Bool.false_ne_true hc

theorem C6_witness :
    ({ query := "safari kenya", Sentiment_Score := 0,
       Sentiment_Category := "neutral", MONDAY := 8 } :
        ClassifiedRow).Sentiment_Score = 0 :=
  (C6_lexicon_fallback (fun _ => 0) 9 ["safari kenya"] ["kenya"] [] [] [] _
    (by decide) (by decide) (by decide) (by decide)).1 (Or.inr (by decide))

/-- C7: every classified row's category is the fixed threshold function of
its score: above 3/10 positive, below -3/10 negative, all other scores
(boundaries included) neutral. -/
theorem C7_category_thresholds
    (compound : String → ℚ) (today : ℕ)
    (queries destinations exclusions ctx negs : List String)
    (r : ClassifiedRow)
    (hr : r ∈ analyze_sentiment compound today queries destinations
      exclusions ctx negs) :
    r.Sentiment_Category = categorize r.Sentiment_Score ∧
    ∀ s : ℚ,
      ((3/10 < s) ↔ categorize s = "positive") ∧
      ((s < -(3/10)) ↔ categorize s = "negative") ∧
      ((-(3/10) ≤ s ∧ s ≤ 3/10) ↔ categorize s = "neutral") := by
  obtain ⟨q, hq, rfl⟩ := analyze_mem hr
  refine ⟨rfl, fun s => ?_⟩
  unfold categorize
  rw [point3_eq]
  split_ifs with h1 h2
  · exact ⟨⟨fun _ => rfl, fun _ => h1⟩,
      ⟨fun h => absurd h (by linarith), fun h => absurd h (by decide)⟩,
      ⟨fun h => False.elim (by linarith [h.2]), fun h => absurd h (by decide)⟩⟩
  · exact ⟨⟨fun h => absurd h h1, fun h => absurd h (by decide)⟩,
      ⟨fun _ => rfl, fun _ => h2⟩,
      ⟨fun h => False.elim (by linarith [h.1]), fun h => absurd h (by decide)⟩⟩
  · exact ⟨⟨fun h => absurd h h1, fun h => absurd h (by decide)⟩,
      ⟨fun h => absurd h h2, fun h => absurd h (by decide)⟩,
      ⟨fun _ => rfl, fun _ => ⟨le_of_not_lt h2, le_of_not_lt h1⟩⟩⟩

theorem C7_witness :
    ({ query := "worst ever", Sentiment_Score := -1,
       Sentiment_Category := "negative", MONDAY := 8 } :
        ClassifiedRow).Sentiment_Category =
      categorize ({ query := "worst ever", Sentiment_Score := -1,
                    Sentiment_Category := "negative", MONDAY := 8 } :
          ClassifiedRow).Sentiment_Score :=
  (C7_category_thresholds (fun _ => 1) 9 ["worst ever"] [] [] [] ["worst"] _
    (by decide)).1

/-- C8: the row builder computes one `run_date`, the most recent Monday on
or before the current date (today itself when today is a Monday), and
attaches that identical date to every row of the batch. -/
theorem C8_shared_run_date
    (compound : String → ℚ) (today : ℕ)
    (queries destinations exclusions ctx negs : List String)
    (h1 : 1 ≤ today) :
    weekday (last_monday today) = 0 ∧
    last_monday today ≤ today ∧
    (∀ m : ℕ, weekday m = 0 → m ≤ today → m ≤ last_monday today) ∧
    (weekday today = 0 → last_monday today = today) ∧
    (∀ r ∈ analyze_sentiment compound today queries destinations
        exclusions ctx negs, r.MONDAY = last_monday today) := by
  refine ⟨?_, ?_, ?_, ?_, ?_⟩
  · simp only [weekday, last_monday]
    split <;> omega
  · simp only [weekday, last_monday]
    split <;> omega
  · intro m hm hmle
    simp only [weekday, last_monday] at hm ⊢
    split <;> omega
  · intro h
    simp only [last_monday, if_pos h]
  · intro r hr
    obtain ⟨q, hq, rfl⟩ := analyze_mem hr
    rfl

theorem C8_witness : weekday (last_monday 9) = 0 ∧ last_monday 9 ≤ 9 :=
  ⟨(C8_shared_run_date (fun _ => 1) 9 [] [] [] [] [] (by decide)).1,
   (C8_shared_run_date (fun _ => 1) 9 [] [] [] [] [] (by decide)).2.1⟩

/-- C9: when the warehouse fetch errors, `run_one` degrades to the empty
result set — no exception propagates, the upsert is never invoked
(second component `none`) and the report carries `rows = 0`; the same
short-circuit applies whenever the fetched query list is empty. -/
theorem C9_fetch_failure_degrades
    (project dataset : String) (ctx negs : List String)
    (compound : String → ℚ) (today : ℕ)
    (hp : project ≠ "") :
    (∀ e, run_one project dataset (Except.error e) ctx negs compound today =
      Except.ok (no_queries_report dataset, none)) ∧
    (∀ outcome, fetch_queries outcome = [] →
      run_one project dataset outcome ctx negs compound today =
      Except.ok (no_queries_report dataset, none)) := by
  have key : ∀ outcome, fetch_queries outcome = [] →
      run_one project dataset outcome ctx negs compound today =
      Except.ok (no_queries_report dataset, none) := by
    intro outcome hempty
    simp [run_one, hp, hempty, no_queries_report]
  exact ⟨fun e => key (Except.error e) rfl, key⟩

theorem C9_witness :
    run_one "proj" "ds" (Except.error "BigQuery fetch failed") [] []
      (fun _ => 1) 9 =
    Except.ok (no_queries_report "ds", none) :=
  (C9_fetch_failure_degrades "proj" "ds" [] [] (fun _ => 1) 9
    (by decide)).1 "BigQuery fetch failed"

/-- C10: `analyze_sentiment` returns exactly one record per input query,
in input order, each carrying the original case-preserved query string;
duplicate inputs yield identical records. -/
theorem C10_one_row_per_query
    (compound : String → ℚ) (today : ℕ)
    (queries destinations exclusions ctx negs : List String) :
    (analyze_sentiment compound today queries destinations exclusions ctx
      negs).length = queries.length ∧
    (∀ i : ℕ, ((analyze_sentiment compound today queries destinations
      exclusions ctx negs)[i]?).map ClassifiedRow.query =
      queries[i]?) ∧
    (∀ i j : ℕ, queries[i]? = queries[j]? →
      (analyze_sentiment compound today queries destinations exclusions ctx
        negs)[i]? =
      (analyze_sentiment compound today queries destinations exclusions ctx
        negs)[j]?) := by
  refine ⟨by simp [analyze_sentiment], fun i => ?_, fun i j hij => ?_⟩
  · simp only [analyze_sentiment, List.getElem?_map]
    cases queries[i]? <;> rfl
  · simp only [analyze_sentiment, List.getElem?_map, hij]

theorem C10_witness :
    (analyze_sentiment (fun _ => 1) 9 ["dup", "dup"] [] [] [] [])[0]? =
    (analyze_sentiment (fun _ => 1) 9 ["dup", "dup"] [] [] [] [])[1]? :=
  (C10_one_row_per_query (fun _ => 1) 9 ["dup", "dup"] [] [] [] []).2.2 0 1
    rfl

/-! Helper lemmas about the merge. -/

/-- The merge never shrinks the target table. -/
lemma upsert_le_length (table : List PersistedRow)
    (staged : List ClassifiedRow) (mt : ℕ) :
    table.length ≤ (upsert_rows_to_bq table staged mt).length := by
  simp only [upsert_rows_to_bq, List.length_append, List.length_map]
  omega

/-- With pairwise-distinct staged queries, looking a staged row's own query
back up in the staging list returns that very row. -/
lemma find_self_of_nodup {staged : List ClassifiedRow}
    (hnd : (staged.map ClassifiedRow.query).Nodup) {s : ClassifiedRow}
    (hs : s ∈ staged) :
    (staged.find? fun x => x.query == s.query) = some s := by
  induction staged with
  | nil => cases hs
  | cons a l ih =>
    rw [List.map_cons, List.nodup_cons] at hnd
    rcases List.mem_cons.mp hs with rfl | hmem
    · rw [List.find?_cons_of_pos]
      simp
    · have hne : (a.query == s.query) = false := by
        rw [beq_eq_false_iff_ne]
        intro he
        exact hnd.1 (he ▸ List.mem_map_of_mem ClassifiedRow.query hmem)
      rw [List.find?_cons_of_neg _ (by simp [hne])]
      exact ih hnd.2 hmem

/-- Against an empty target table, the merge is exactly the batch of
inserted rows. -/
lemma upsert_nil (staged : List ClassifiedRow) (mt : ℕ) :
    upsert_rows_to_bq [] staged mt = staged.map (mergeInsert mt) := by
  simp [upsert_rows_to_bq]

/-- C2: per matched query, the merge updates score, category and
`updated_at` exactly when the staged score or category differs (leaving
`inserted_at` and `MONDAY` untouched in every case); non-matching target
rows keep their position and value; on an initially empty table the merge
inserts one row per staged query with `inserted_at = updated_at`, and
re-running the same batch leaves the table literally unchanged. -/
theorem C2_merge_update_iff_changed (staged : List ClassifiedRow)
    (hnd : (staged.map ClassifiedRow.query).Nodup) (t1 t2 : ℕ) :
    (∀ (table : List PersistedRow) (mt : ℕ) (i : ℕ) (hi : i < table.length),
      (upsert_rows_to_bq table staged mt).get
          ⟨i, Nat.lt_of_lt_of_le hi (upsert_le_length table staged mt)⟩ =
        mergeMatched mt staged (table.get ⟨i, hi⟩)) ∧
    (∀ (mt : ℕ) (t : PersistedRow),
      (mergeMatched mt staged t).inserted_at = t.inserted_at ∧
      (mergeMatched mt staged t).MONDAY = t.MONDAY) ∧
    (∀ (mt : ℕ) (t : PersistedRow) (s : ClassifiedRow),
      (staged.find? fun x => x.query == t.query) = some s →
      mergeMatched mt staged t =
        if s.Sentiment_Score = t.Sentiment_Score ∧
            s.Sentiment_Category = t.Sentiment_Category then t
        else { t with Sentiment_Score := s.Sentiment_Score
                      Sentiment_Category := s.Sentiment_Category
                      updated_at := mt }) ∧
    (∀ (mt : ℕ) (t : PersistedRow),
      (staged.find? fun x => x.query == t.query) = none →
      mergeMatched mt staged t = t) ∧
    ((upsert_rows_to_bq [] staged t1).map PersistedRow.query =
      staged.map ClassifiedRow.query) ∧
    (∀ r ∈ upsert_rows_to_bq [] staged t1,
      r.inserted_at = t1 ∧ r.updated_at = t1) ∧
    upsert_rows_to_bq (upsert_rows_to_bq [] staged t1) staged t2 =
      upsert_rows_to_bq [] staged t1 := by
  refine ⟨?_, ?_, ?_, ?_, ?_, ?_, ?_⟩
  · intro table mt i hi
    have hlen : i < (table.map (mergeMatched mt staged)).length := by
      simpa using hi
    simp only [upsert_rows_to_bq, List.get_eq_getElem]
    rw [List.getElem_append_left hlen, List.getElem_map]
  · intro mt t
    rcases hf : staged.find? fun x => x.query == t.query with _ | s
    · simp [mergeMatched, hf]
    · simp only [mergeMatched, hf]
      split
      · exact ⟨rfl, rfl⟩
      · exact ⟨rfl, rfl⟩
  · intro mt t s hf
    simp only [mergeMatched, hf]
    split_ifs with h1 h2 <;> tauto
  · intro mt t hf
    simp only [mergeMatched, hf]
  · rw [upsert_nil, List.map_map]
    rfl
  · intro r hr
    rw [upsert_nil] at hr
    obtain ⟨s, _, rfl⟩ := List.mem_map.mp hr
    exact ⟨rfl, rfl⟩
  · rw [upsert_nil]
    have hmatched : (staged.map (mergeInsert t1)).map
        (mergeMatched t2 staged) = staged.map (mergeInsert t1) := by
      rw [List.map_map]
      apply List.map_congr_left
      intro s hs
      show mergeMatched t2 staged (mergeInsert t1 s) = mergeInsert t1 s
      have hf : (staged.find? fun x =>
          x.query == (mergeInsert t1 s).query) = some s :=
        find_self_of_nodup hnd hs
      simp only [mergeMatched, hf]
      rw [if_neg]
      push_neg
      exact ⟨rfl, rfl⟩
    have hfiltered : (staged.filter fun s =>
        (staged.map (mergeInsert t1)).all fun t =>
          !(t.query == s.query)) = [] := by
      rw [List.filter_eq_nil_iff]
      intro s hs hcontra
      have hall := List.all_eq_true.mp hcontra (mergeInsert t1 s)
        (List.mem_map_of_mem (mergeInsert t1) hs)
      simp [mergeInsert] at hall
    rw [upsert_rows_to_bq, hmatched, hfiltered, List.map_nil,
      List.append_nil]

theorem C2_witness :
    upsert_rows_to_bq
        (upsert_rows_to_bq []
          [{ query := "st lucia holidays", Sentiment_Score := 0,
             Sentiment_Category := "neutral", MONDAY := 8 }] 5)
        [{ query := "st lucia holidays", Sentiment_Score := 0,
           Sentiment_Category := "neutral", MONDAY := 8 }] 9 =
      upsert_rows_to_bq []
        [{ query := "st lucia holidays", Sentiment_Score := 0,
           Sentiment_Category := "neutral", MONDAY := 8 }] 5 :=
  (C2_merge_update_iff_changed
    [{ query := "st lucia holidays", Sentiment_Score := 0,
       Sentiment_Category := "neutral", MONDAY := 8 }]
    (by decide) 5 9).2.2.2.2.2.2

/-! Orchestration across datasets. -/

/-- C3 counterexample: with datasets `["clientA", "clientB"]` where
"clientA" raises a fatal error and "clientB" would succeed, the
orchestrator propagates the exception and produces no per-client result
list at all — "clientB" is never reported, refuting the claim that every
subsequent dataset is still attempted and reported. -/
theorem C3_counterexample :
    run_for_datasets failingRunOne ["clientA", "clientB"] =
      Except.error "storage-write failure" ∧
    failingRunOne "clientB" =
      Except.ok { dataset := "clientB", rows := 5, note := none,
                  ok := true } := by
  constructor
  · rfl
  · rfl

/-- C3 amended: the bare `for ds in datasets: results.append(run_one(ds))`
loop returns one result per dataset only when every per-client run
succeeds; as soon as one client's run raises a fatal error, the error
propagates out of `run_for_datasets` and the remaining datasets are not
attempted. -/
theorem C3_error_aborts_batch
    (runOne : String → Except String RunReport) :
    (∀ (g : String → RunReport) (datasets : List String),
      (∀ ds ∈ datasets, runOne ds = Except.ok (g ds)) →
      run_for_datasets runOne datasets = Except.ok (datasets.map g)) ∧
    (∀ (e ds : String) (rest : List String),
      runOne ds = Except.error e →
      run_for_datasets runOne (ds :: rest) = Except.error e) := by
  constructor
  · intro g datasets hok
    induction datasets with
    | nil => rfl
    | cons d rest ih =>
      rw [run_for_datasets, hok d (List.mem_cons_self d rest),
        ih fun ds hds => hok ds (List.mem_cons_of_mem d hds)]
      rfl
  · intro e ds rest he
    rw [run_for_datasets, he]

theorem C3_witness :
    run_for_datasets
        (fun ds => Except.ok { dataset := ds, rows := 0, note := none,
                               ok := true }) ["a", "b"] =
      Except.ok (["a", "b"].map fun ds =>
        ({ dataset := ds, rows := 0, note := none, ok := true } :
          RunReport)) :=
  (C3_error_aborts_batch _).1
    (fun ds => { dataset := ds, rows := 0, note := none, ok := true })
    ["a", "b"] (fun _ _ => rfl)

end BQPipeline
